import Mathlib

/-!
Shallow embedding of the core retrieval / code-graph components of the
`ekad` repository, together with proofs about them.

Embedded modules:
* `vectorstore/hybrid_search.py` — BM25 search, Reciprocal Rank Fusion,
  hybrid search (dense + sparse).
* `vectorstore/retrievers/dispatcher.py` — per business-area source →
  retriever dispatch.
* `codeql/source_registry.py` — code source registry.
* `codeql/builder.py` — revision-gated CodeQL database build.
* `codeql/analysis_service.py` — per-source analysis orchestration.

Conventions: Python floats are modelled as `ℚ`; Python dicts are modelled
as insertion-ordered association lists (`List (String × α)`), with `setA`
reproducing the in-place-update-or-append semantics of a dict write;
Python truthiness of optional strings (`None` and `""` are falsy) is
modelled by `truthy`; a raised exception is modelled as `Except.error`;
external collaborators (the embedding service, the vector index, the
BM25Okapi scorer, the CodeQL CLI and storage, graph emission) are
modelled as explicit function-valued parameters.
-/

namespace Ekad

/-- Python truthiness of an optional string: `None` and `""` are falsy. -/
def truthy : Option String → Bool
  | none => false
  | some s => decide (s ≠ "")

/-- Python `a or b` for optional strings: `a` when truthy, else `b`. -/
def pyOr (a b : Option String) : Option String :=
  if truthy a then a else b

/-- Read a key from an insertion-ordered association list (a dict read). -/
def getA {α : Type} : List (String × α) → String → Option α
  | [], _ => none
  | (k, v) :: rest, key => if k = key then some v else getA rest key

/-- Dict write: replace the value at an existing key in place, else append. -/
def setA {α : Type} : List (String × α) → String → α → List (String × α)
  | [], key, v => [(key, v)]
  | (k, w) :: rest, key, v =>
    if k = key then (k, v) :: rest else (k, w) :: setA rest key v

/-- Update the value at a key in place (no-op when the key is absent). -/
def modifyA {α : Type} : List (String × α) → String → (α → α) → List (String × α)
  | [], _, _ => []
  | (k, v) :: rest, key, f =>
    if k = key then (k, f v) :: rest else (k, v) :: modifyA rest key f

/-- `rrf_scores[doc_id] = rrf_scores.get(doc_id, 0) + v`. -/
def addScore : List (String × ℚ) → String → ℚ → List (String × ℚ)
  | [], key, v => [(key, v)]
  | (k, w) :: rest, key, v =>
    if k = key then (k, w + v) :: rest else (k, w) :: addScore rest key v

/-- Keys of an association list. -/
def keysA {α : Type} (l : List (String × α)) : List String :=
  l.map Prod.fst

/-! ### `vectorstore/hybrid_search.py` data model -/

/-- The `payload` sub-dict of a dense search result (only the field the
fusion code reads is named; everything else is irrelevant to it). -/
structure Payload where
  document_id : Option String := none
deriving DecidableEq

/-- A dense (vector) search result, as read by `reciprocal_rank_fusion`:
`result.get("id")` and `result.get("payload", {})`. -/
structure DenseResult where
  id : Option String := none
  payload : Option Payload := none
deriving DecidableEq

/-- A BM25-indexed document: `doc.get("id")`, `doc.get("document_id")`,
`doc.get("content", "")`. -/
structure BMDoc where
  id : Option String := none
  document_id : Option String := none
  content : String := ""
deriving DecidableEq

/-- One `bm25_search` result: `{"document": ..., "score": ..., "rank": ...}`. -/
structure BM25Result where
  document : Option BMDoc := none
  score : ℚ := 0
  rank : ℕ := 0
deriving DecidableEq

/-- `doc_id = result.get("id") or result.get("payload", {}).get("document_id")`
followed by the `if doc_id:` truthiness guard of the dense loop. -/
def denseDocId (r : DenseResult) : Option String :=
  let d := pyOr r.id (r.payload.getD {}).document_id
  if truthy d then d else none

/-- `doc = result.get("document", {}); doc_id = doc.get("id") or
doc.get("document_id")` followed by the `if doc_id:` guard of the BM25 loop. -/
def bmDocId (r : BM25Result) : Option String :=
  let doc := r.document.getD {}
  let d := pyOr doc.id doc.document_id
  if truthy d then d else none

/-- The value of the fused `payload` field:
`document_map[doc_id].get("payload", document_map[doc_id])`, where the
document map holds the dense result itself for dense hits and
`{"payload": doc}` for BM25-only hits. -/
inductive FPayload
  | fromPayload (p : Payload)
  | fromDense (r : DenseResult)
  | fromDoc (d : BMDoc)
deriving DecidableEq

/-- Project a document-map entry to the fused payload. -/
def fusedPayload : DenseResult ⊕ BMDoc → FPayload
  | Sum.inl r =>
    match r.payload with
    | some p => FPayload.fromPayload p
    | none => FPayload.fromDense r
  | Sum.inr d => FPayload.fromDoc d

/-- An entry of the fused result list:
`{"id": ..., "rrf_score": ..., "payload": ...}`. -/
structure FusedEntry where
  id : String
  rrf_score : ℚ
  payload : Option FPayload := none
deriving DecidableEq

/-- The dense loop of `reciprocal_rank_fusion`:
`for rank, result in enumerate(dense_results, start=1): ...`. -/
def rrfAddDense (k : ℕ) :
    List DenseResult → ℕ → List (String × ℚ) →
    List (String × (DenseResult ⊕ BMDoc)) →
    List (String × ℚ) × List (String × (DenseResult ⊕ BMDoc))
  | [], _, scores, dmap => (scores, dmap)
  | r :: rest, rank, scores, dmap =>
    match denseDocId r with
    | some d =>
      rrfAddDense k rest (rank + 1)
        (addScore scores d (1 / ((k : ℚ) + (rank : ℚ))))
        (setA dmap d (Sum.inl r))
    | none => rrfAddDense k rest (rank + 1) scores dmap

/-- The BM25 loop of `reciprocal_rank_fusion`:
`for rank, result in enumerate(bm25_results, start=1): ...`; the document
map is only written when the id is not already present. -/
def rrfAddBM25 (k : ℕ) :
    List BM25Result → ℕ → List (String × ℚ) →
    List (String × (DenseResult ⊕ BMDoc)) →
    List (String × ℚ) × List (String × (DenseResult ⊕ BMDoc))
  | [], _, scores, dmap => (scores, dmap)
  | r :: rest, rank, scores, dmap =>
    match bmDocId r with
    | some d =>
      rrfAddBM25 k rest (rank + 1)
        (addScore scores d (1 / ((k : ℚ) + (rank : ℚ))))
        (if (getA dmap d).isSome then dmap else setA dmap d (Sum.inr (r.document.getD {})))
    | none => rrfAddBM25 k rest (rank + 1) scores dmap

/-- The comparison used by `fused_results.sort(key=lambda x: x["rrf_score"],
reverse=True)`: a Python stable descending sort is an insertion sort with
this (total, transitive) relation. -/
def fusedGE (a b : FusedEntry) : Prop := b.rrf_score ≤ a.rrf_score

instance : DecidableRel fusedGE := fun a b =>
  inferInstanceAs (Decidable (b.rrf_score ≤ a.rrf_score))

instance : IsTotal FusedEntry fusedGE :=
  ⟨fun a b => le_total b.rrf_score a.rrf_score⟩

instance : IsTrans FusedEntry fusedGE :=
  ⟨fun _ _ _ h1 h2 => le_trans h2 h1⟩

/-- `HybridSearchEngine.reciprocal_rank_fusion` (the `k` constant is 60 at
every call site). -/
def reciprocal_rank_fusion (dense : List DenseResult) (bm25 : List BM25Result)
    (k : ℕ) : List FusedEntry :=
  let p1 := rrfAddDense k dense 1 [] []
  let p2 := rrfAddBM25 k bm25 1 p1.1 p1.2
  let fused := p2.1.map (fun e =>
    { id := e.1, rrf_score := e.2, payload := (getA p2.2 e.1).map fusedPayload })
  List.insertionSort fusedGE fused

/-! ### Specification-side score formulas -/

/-- The total contribution `Σ 1/(k + r)` that a document id `d` collects
from a list of (optional) extracted ids whose first element sits at
1-based rank `rank`. Invalid items keep their rank position but
contribute nothing. -/
def contribAux (k : ℕ) (d : String) : List (Option String) → ℕ → ℚ
  | [], _ => 0
  | i :: rest, rank =>
    (if i = some d then (1 : ℚ) / ((k : ℚ) + (rank : ℚ)) else 0) +
      contribAux k d rest (rank + 1)

/-- Contribution of the dense list to document id `d`. -/
def denseContrib (k : ℕ) (dense : List DenseResult) (d : String) : ℚ :=
  contribAux k d (dense.map denseDocId) 1

/-- Contribution of the BM25 list to document id `d`. -/
def bm25Contrib (k : ℕ) (bm25 : List BM25Result) (d : String) : ℚ :=
  contribAux k d (bm25.map bmDocId) 1

/-- The score a key holds in a score dict (0 when absent). -/
def scoreOf (l : List (String × ℚ)) (d : String) : ℚ :=
  (getA l d).getD 0

theorem getA_addScore (scores : List (String × ℚ)) (key d : String) (v : ℚ) :
    getA (addScore scores key v) d =
      if d = key then some ((getA scores key).getD 0 + v) else getA scores d := by
  induction scores with
  | nil =>
    simp only [addScore, getA]
    split_ifs with h1 h2 <;> simp_all [eq_comm]
  | cons p rest ih =>
    obtain ⟨k, w⟩ := p
    simp only [addScore, getA]
    split_ifs with hk hd <;>
      simp_all [getA, eq_comm] <;>
      simp_all [ih] <;>
      split_ifs <;> simp_all

theorem scoreOf_addScore (scores : List (String × ℚ)) (key d : String) (v : ℚ) :
    scoreOf (addScore scores key v) d =
      scoreOf scores d + if d = key then v else 0 := by
  unfold scoreOf
  rw [getA_addScore]
  by_cases h : d = key
  · subst h; simp
  · simp [h]

theorem scoreOf_rrfAddDense (k : ℕ) (rs : List DenseResult) :
    ∀ (rank : ℕ) (scores : List (String × ℚ))
      (dmap : List (String × (DenseResult ⊕ BMDoc))) (d : String),
      scoreOf (rrfAddDense k rs rank scores dmap).1 d =
        scoreOf scores d + contribAux k d (rs.map denseDocId) rank := by
  induction rs with
  | nil => intro rank scores dmap d; simp [rrfAddDense, contribAux]
  | cons r rest ih =>
    intro rank scores dmap d
    simp only [List.map_cons, contribAux]
    cases hdoc : denseDocId r with
    | some i =>
      simp only [rrfAddDense, hdoc]
      rw [ih, scoreOf_addScore]
      have heq : (if (some i : Option String) = some d then
            (1 : ℚ) / ((k : ℚ) + (rank : ℚ)) else 0) =
          (if d = i then (1 : ℚ) / ((k : ℚ) + (rank : ℚ)) else 0) := by
        by_cases h : d = i
        · subst h; simp
        · have hne : ¬ ((some i : Option String) = some d) := by
            simp only [Option.some.injEq]
            exact fun hh => h hh.symm
          rw [if_neg hne, if_neg h]
      rw [heq]
      ring
    | none =>
      simp only [rrfAddDense, hdoc]
      rw [ih]
      simp

theorem scoreOf_rrfAddBM25 (k : ℕ) (rs : List BM25Result) :
    ∀ (rank : ℕ) (scores : List (String × ℚ))
      (dmap : List (String × (DenseResult ⊕ BMDoc))) (d : String),
      scoreOf (rrfAddBM25 k rs rank scores dmap).1 d =
        scoreOf scores d + contribAux k d (rs.map bmDocId) rank := by
  induction rs with
  | nil => intro rank scores dmap d; simp [rrfAddBM25, contribAux]
  | cons r rest ih =>
    intro rank scores dmap d
    simp only [List.map_cons, contribAux]
    cases hdoc : bmDocId r with
    | some i =>
      simp only [rrfAddBM25, hdoc]
      rw [ih, scoreOf_addScore]
      have heq : (if (some i : Option String) = some d then
            (1 : ℚ) / ((k : ℚ) + (rank : ℚ)) else 0) =
          (if d = i then (1 : ℚ) / ((k : ℚ) + (rank : ℚ)) else 0) := by
        by_cases h : d = i
        · subst h; simp
        · have hne : ¬ ((some i : Option String) = some d) := by
            simp only [Option.some.injEq]
            exact fun hh => h hh.symm
          rw [if_neg hne, if_neg h]
      rw [heq]
      ring
    | none =>
      simp only [rrfAddBM25, hdoc]
      rw [ih]
      simp

theorem keysA_addScore (scores : List (String × ℚ)) (key : String) (v : ℚ) :
    keysA (addScore scores key v) =
      if key ∈ keysA scores then keysA scores else keysA scores ++ [key] := by
  induction scores with
  | nil => simp [addScore, keysA]
  | cons p rest ih =>
    obtain ⟨k, w⟩ := p
    simp only [addScore, keysA, List.map_cons]
    split_ifs with hk <;> simp_all [keysA, eq_comm] <;> split_ifs <;> simp_all

theorem nodup_keysA_addScore {scores : List (String × ℚ)} {key : String} {v : ℚ}
    (h : (keysA scores).Nodup) : (keysA (addScore scores key v)).Nodup := by
  rw [keysA_addScore]
  split_ifs with hmem
  · exact h
  · simpa using List.Nodup.append h (List.nodup_singleton key)
      (by simpa [List.disjoint_singleton] using hmem)

theorem nodup_keysA_rrfAddDense (k : ℕ) (rs : List DenseResult) :
    ∀ (rank : ℕ) (scores : List (String × ℚ))
      (dmap : List (String × (DenseResult ⊕ BMDoc))),
      (keysA scores).Nodup → (keysA (rrfAddDense k rs rank scores dmap).1).Nodup := by
  induction rs with
  | nil => intro rank scores dmap h; simpa [rrfAddDense] using h
  | cons r rest ih =>
    intro rank scores dmap h
    cases hdoc : denseDocId r with
    | some i => simpa [rrfAddDense, hdoc] using ih _ _ _ (nodup_keysA_addScore h)
    | none => simpa [rrfAddDense, hdoc] using ih _ _ _ h

theorem nodup_keysA_rrfAddBM25 (k : ℕ) (rs : List BM25Result) :
    ∀ (rank : ℕ) (scores : List (String × ℚ))
      (dmap : List (String × (DenseResult ⊕ BMDoc))),
      (keysA scores).Nodup → (keysA (rrfAddBM25 k rs rank scores dmap).1).Nodup := by
  induction rs with
  | nil => intro rank scores dmap h; simpa [rrfAddBM25] using h
  | cons r rest ih =>
    intro rank scores dmap h
    cases hdoc : bmDocId r with
    | some i => simpa [rrfAddBM25, hdoc] using ih _ _ _ (nodup_keysA_addScore h)
    | none => simpa [rrfAddBM25, hdoc] using ih _ _ _ h

theorem getA_of_mem_nodup {α : Type} {l : List (String × α)} {d : String} {s : α}
    (hnd : (keysA l).Nodup) (hmem : (d, s) ∈ l) : getA l d = some s := by
  induction l with
  | nil => cases hmem
  | cons p rest ih =>
    obtain ⟨k, w⟩ := p
    simp only [keysA, List.map_cons, List.nodup_cons] at hnd
    rcases List.mem_cons.mp hmem with heq | hrest
    · have h1 : k = d := (Prod.ext_iff.mp heq).1.symm
      have h2 : w = s := (Prod.ext_iff.mp heq).2.symm
      simp [getA, h1, h2]
    · have hd : k ≠ d := by
        intro hkd
        exact hnd.1 (hkd ▸ (List.mem_map.mpr ⟨(d, s), hrest, rfl⟩))
      simp only [getA, if_neg hd]
      exact ih (by simpa [keysA] using hnd.2) hrest

theorem mem_keysA_rrfAddDense (k : ℕ) (rs : List DenseResult) :
    ∀ (rank : ℕ) (scores : List (String × ℚ))
      (dmap : List (String × (DenseResult ⊕ BMDoc))) (d : String),
      d ∈ keysA (rrfAddDense k rs rank scores dmap).1 →
      d ∈ keysA scores ∨ some d ∈ rs.map denseDocId := by
  induction rs with
  | nil => intro rank scores dmap d h; exact Or.inl (by simpa [rrfAddDense] using h)
  | cons r rest ih =>
    intro rank scores dmap d h
    cases hdoc : denseDocId r with
    | some i =>
      simp only [rrfAddDense, hdoc] at h
      rcases ih _ _ _ _ h with hs | hrest
      · rw [keysA_addScore] at hs
        split_ifs at hs with hmem
        · exact Or.inl hs
        · rcases List.mem_append.mp hs with h1 | h2
          · exact Or.inl h1
          · have : d = i := by simpa using h2
            exact Or.inr (by simp [hdoc, this])
      · exact Or.inr (by
          simp only [List.map_cons, List.mem_cons]
          exact Or.inr hrest)
    | none =>
      simp only [rrfAddDense, hdoc] at h
      rcases ih _ _ _ _ h with hs | hrest
      · exact Or.inl hs
      · exact Or.inr (by
          simp only [List.map_cons, List.mem_cons]
          exact Or.inr hrest)

theorem mem_keysA_rrfAddBM25 (k : ℕ) (rs : List BM25Result) :
    ∀ (rank : ℕ) (scores : List (String × ℚ))
      (dmap : List (String × (DenseResult ⊕ BMDoc))) (d : String),
      d ∈ keysA (rrfAddBM25 k rs rank scores dmap).1 →
      d ∈ keysA scores ∨ some d ∈ rs.map bmDocId := by
  induction rs with
  | nil => intro rank scores dmap d h; exact Or.inl (by simpa [rrfAddBM25] using h)
  | cons r rest ih =>
    intro rank scores dmap d h
    cases hdoc : bmDocId r with
    | some i =>
      simp only [rrfAddBM25, hdoc] at h
      rcases ih _ _ _ _ h with hs | hrest
      · rw [keysA_addScore] at hs
        split_ifs at hs with hmem
        · exact Or.inl hs
        · rcases List.mem_append.mp hs with h1 | h2
          · exact Or.inl h1
          · have : d = i := by simpa using h2
            exact Or.inr (by simp [hdoc, this])
      · exact Or.inr (by
          simp only [List.map_cons, List.mem_cons]
          exact Or.inr hrest)
    | none =>
      simp only [rrfAddBM25, hdoc] at h
      rcases ih _ _ _ _ h with hs | hrest
      · exact Or.inl hs
      · exact Or.inr (by
          simp only [List.map_cons, List.mem_cons]
          exact Or.inr hrest)

/-- Any entry of the fused output carries the sum of its rank
contributions from the two input lists. Shared helper for the claims
about `reciprocal_rank_fusion`. -/
theorem rrf_score_eq {k : ℕ} {dense : List DenseResult} {bm25 : List BM25Result}
    {e : FusedEntry} (he : e ∈ reciprocal_rank_fusion dense bm25 k) :
    e.rrf_score = denseContrib k dense e.id + bm25Contrib k bm25 e.id := by
  simp only [reciprocal_rank_fusion] at he
  have he2 := (List.Perm.mem_iff (List.perm_insertionSort fusedGE _)).mp he
  obtain ⟨a, ha, hae⟩ := List.mem_map.mp he2
  have hnodup :
      (keysA (rrfAddBM25 k bm25 1 (rrfAddDense k dense 1 [] []).1
        (rrfAddDense k dense 1 [] []).2).1).Nodup :=
    nodup_keysA_rrfAddBM25 _ _ _ _ _
      (nodup_keysA_rrfAddDense _ _ _ _ _ (by simp [keysA]))
  have hget : getA (rrfAddBM25 k bm25 1 (rrfAddDense k dense 1 [] []).1
      (rrfAddDense k dense 1 [] []).2).1 a.1 = some a.2 :=
    getA_of_mem_nodup hnodup (by simpa using ha)
  have hscore : scoreOf (rrfAddBM25 k bm25 1 (rrfAddDense k dense 1 [] []).1
      (rrfAddDense k dense 1 [] []).2).1 a.1 = a.2 := by
    unfold scoreOf; rw [hget]; rfl
  rw [scoreOf_rrfAddBM25, scoreOf_rrfAddDense] at hscore
  have hid : e.id = a.1 := by rw [← hae]
  have hrs : e.rrf_score = a.2 := by rw [← hae]
  rw [hid, hrs, ← hscore, denseContrib, bm25Contrib]
  simp [scoreOf, getA]

/-- Any entry of the fused output stems from a validly extracted document
id of one of the two lists. Shared helper. -/
theorem rrf_mem_extracted {k : ℕ} {dense : List DenseResult} {bm25 : List BM25Result}
    {e : FusedEntry} (he : e ∈ reciprocal_rank_fusion dense bm25 k) :
    some e.id ∈ dense.map denseDocId ∨ some e.id ∈ bm25.map bmDocId := by
  simp only [reciprocal_rank_fusion] at he
  have he2 := (List.Perm.mem_iff (List.perm_insertionSort fusedGE _)).mp he
  obtain ⟨a, ha, hae⟩ := List.mem_map.mp he2
  have hkey : e.id ∈ keysA (rrfAddBM25 k bm25 1 (rrfAddDense k dense 1 [] []).1
      (rrfAddDense k dense 1 [] []).2).1 := by
    have : e.id = a.1 := by rw [← hae]
    rw [this]
    exact List.mem_map.mpr ⟨a, ha, rfl⟩
  rcases mem_keysA_rrfAddBM25 _ _ _ _ _ _ hkey with hs | hb
  · rcases mem_keysA_rrfAddDense _ _ _ _ _ _ hs with h0 | hd
    · simp [keysA] at h0
    · exact Or.inl hd
  · exact Or.inr hb

/-- C1: every item at 1-based rank `r` of either input list contributes
`1/(60+r)` to the fused score of its document id; ids found in both lists
get the sum of the two contributions, ids found in a single list get just
that contribution (the other summand is 0 by definition of the
contribution sum); the fused list is sorted with non-increasing
`rrf_score`. -/
theorem rrf_fused_scores_and_order (dense : List DenseResult) (bm25 : List BM25Result) :
    (∀ e ∈ reciprocal_rank_fusion dense bm25 60,
      e.rrf_score = denseContrib 60 dense e.id + bm25Contrib 60 bm25 e.id)
    ∧ (reciprocal_rank_fusion dense bm25 60).Sorted
        (fun a b => b.rrf_score ≤ a.rrf_score) := by
  constructor
  · intro e he
    exact rrf_score_eq he
  · show List.Sorted fusedGE _
    exact List.sorted_insertionSort fusedGE _

/-- Concrete dense list for the C1 witness. -/
def c1dense : List DenseResult := [{ id := some "a" }, { id := some "b" }]

/-- Concrete BM25 list for the C1 witness. -/
def c1bm : List BM25Result := [{ document := some { id := some "b" } }]

/-- Concrete fused entry for the C1 witness. -/
def c1entry : FusedEntry :=
  { id := "b", rrf_score := 1 / 62 + 1 / 61,
    payload := some (FPayload.fromDense { id := some "b" }) }

/-- Witness for C1 on concrete lists: the id "b" appears at dense rank 2
and BM25 rank 1, so its fused score is `1/62 + 1/61`. -/
theorem rrf_fused_scores_and_order_witness :
    (c1entry ∈ reciprocal_rank_fusion c1dense c1bm 60)
    ∧ c1entry.rrf_score = denseContrib 60 c1dense c1entry.id + bm25Contrib 60 c1bm c1entry.id := by
  have hmem : c1entry ∈ reciprocal_rank_fusion c1dense c1bm 60 := by
    unfold reciprocal_rank_fusion
    refine (List.Perm.mem_iff (List.perm_insertionSort fusedGE _)).mpr ?_
    simp only [c1dense, c1bm, c1entry, rrfAddDense, rrfAddBM25, denseDocId, bmDocId,
      truthy, pyOr, addScore, setA, getA, fusedPayload, Option.getD, List.map,
      List.mem_cons]
    norm_num
    decide
  exact ⟨hmem, (rrf_fused_scores_and_order c1dense c1bm).1 c1entry hmem⟩

/-- C10: an item whose id extraction fails (no truthy `id` and no truthy
payload `document_id`) never yields a fused entry, but it still occupies
its 1-based rank: with an invalid item at the head of either list, the
remaining items of that list contribute at ranks starting from 2. -/
theorem rrf_invalid_items_excluded_but_ranked (dense : List DenseResult)
    (bm25 : List BM25Result) :
    (∀ e ∈ reciprocal_rank_fusion dense bm25 60,
      some e.id ∈ dense.map denseDocId ∨ some e.id ∈ bm25.map bmDocId)
    ∧ (∀ r : DenseResult, denseDocId r = none →
        ∀ e ∈ reciprocal_rank_fusion (r :: dense) bm25 60,
          e.rrf_score =
            contribAux 60 e.id (dense.map denseDocId) 2 + bm25Contrib 60 bm25 e.id)
    ∧ (∀ r : BM25Result, bmDocId r = none →
        ∀ e ∈ reciprocal_rank_fusion dense (r :: bm25) 60,
          e.rrf_score =
            denseContrib 60 dense e.id + contribAux 60 e.id (bm25.map bmDocId) 2) := by
  refine ⟨fun e he => rrf_mem_extracted he, fun r hr e he => ?_, fun r hr e he => ?_⟩
  · have h := rrf_score_eq he
    rw [h, denseContrib]
    simp [contribAux, hr]
  · have h := rrf_score_eq he
    rw [h, bm25Contrib]
    simp [contribAux, hr]

/-- Concrete id-less dense item for the C10 witness. -/
def c10bad : DenseResult := { id := some "" }

/-- Concrete valid dense item list for the C10 witness. -/
def c10rest : List DenseResult := [{ id := some "a" }]

/-- Concrete fused entry for the C10 witness. -/
def c10entry : FusedEntry :=
  { id := "a", rrf_score := 1 / 62,
    payload := some (FPayload.fromDense { id := some "a" }) }

/-- Witness for C10: with an id-less dense item at rank 1, the item "a"
behind it contributes `1/62` (rank 2), and the id-less item produces no
fused entry. -/
theorem rrf_invalid_items_excluded_but_ranked_witness :
    (c10entry ∈ reciprocal_rank_fusion (c10bad :: c10rest) [] 60)
    ∧ denseDocId c10bad = none
    ∧ c10entry.rrf_score =
        contribAux 60 c10entry.id (c10rest.map denseDocId) 2 + bm25Contrib 60 [] c10entry.id := by
  have hmem : c10entry ∈ reciprocal_rank_fusion (c10bad :: c10rest) [] 60 := by
    unfold reciprocal_rank_fusion
    refine (List.Perm.mem_iff (List.perm_insertionSort fusedGE _)).mpr ?_
    simp only [c10bad, c10rest, c10entry, rrfAddDense, rrfAddBM25, denseDocId, bmDocId,
      truthy, pyOr, addScore, setA, getA, fusedPayload, Option.getD, List.map,
      List.mem_cons]
    norm_num
    decide
  exact ⟨hmem, by decide,
    (rrf_invalid_items_excluded_but_ranked c10rest []).2.1 c10bad (by decide) c10entry hmem⟩

/-! ### `hybrid_search` / `bm25_search` -/

/-- A per-area BM25 index: the indexed documents (`bm25_documents[area]`)
together with the external BM25Okapi scorer (`get_scores`), abstracted as
a function from the tokenized query to one score per document. -/
structure BMIndex where
  documents : List BMDoc
  get_scores : List String → List ℚ

/-- The `HybridSearchEngine` state: `bm25_indexes` keyed by business area
(`bm25_documents` is carried inside each `BMIndex`; the two dicts are
always written together by `build_bm25_index`). -/
structure HybridEngine where
  bm25_indexes : List (String × BMIndex)

/-- `query.lower().split()`: lowercase, split on whitespace, drop empties. -/
def tokenize (s : String) : List String :=
  (s.toLower.split (fun c => c.isWhitespace)).filter (fun t => t ≠ "")

/-- Sort order of `results.sort(key=lambda x: x["score"], reverse=True)`. -/
def bm25GE (a b : BM25Result) : Prop := b.score ≤ a.score

instance : DecidableRel bm25GE := fun a b =>
  inferInstanceAs (Decidable (b.score ≤ a.score))

instance : IsTotal BM25Result bm25GE := ⟨fun a b => le_total b.score a.score⟩

instance : IsTrans BM25Result bm25GE := ⟨fun _ _ _ h1 h2 => le_trans h2 h1⟩

/-- `HybridSearchEngine.bm25_search`: empty when no index exists for the
area, else one scored entry per indexed document, sorted by descending
score, truncated to `top_k`. -/
def bm25_search (engine : HybridEngine) (business_area query : String)
    (top_k : ℕ) : List BM25Result :=
  match getA engine.bm25_indexes business_area with
  | none => []
  | some idx =>
    let scores := idx.get_scores (tokenize query)
    let results := (List.range idx.documents.length).map (fun i =>
      { document := some (idx.documents.getD i {}), score := scores.getD i 0,
        rank := i : BM25Result })
    (List.insertionSort bm25GE results).take top_k

/-- `HybridSearchEngine.hybrid_search`: the outcome of the awaited
`dense_search` (an external embedding + vector-index call wrapped in a
re-raising handler) is passed in as `denseOut`; a raised dense search is
re-raised, otherwise dense and BM25 results are fused and truncated. -/
def hybrid_search (engine : HybridEngine) (business_area query : String)
    (top_k : ℕ) (denseOut : Except String (List DenseResult)) :
    Except String (List FusedEntry) :=
  match denseOut with
  | .error e => .error e
  | .ok dense_results =>
    .ok ((reciprocal_rank_fusion dense_results
      (bm25_search engine business_area query (top_k * 2)) 60).take top_k)

/-- The score list produced by the dense loop when every id is fresh:
one entry per valid id, in list order, scored by its own rank. -/
def denseScoreList (k : ℕ) : List (Option String) → ℕ → List (String × ℚ)
  | [], _ => []
  | none :: rest, rank => denseScoreList k rest (rank + 1)
  | some d :: rest, rank =>
    (d, 1 / ((k : ℚ) + (rank : ℚ))) :: denseScoreList k rest (rank + 1)

theorem addScore_append {scores : List (String × ℚ)} {d : String} (v : ℚ)
    (h : d ∉ keysA scores) : addScore scores d v = scores ++ [(d, v)] := by
  induction scores with
  | nil => rfl
  | cons p rest ih =>
    obtain ⟨k, w⟩ := p
    simp only [keysA, List.map_cons, List.mem_cons] at h
    push_neg at h
    simp only [addScore, List.cons_append]
    rw [ih (by simpa [keysA] using h.2)]
    rw [if_neg (fun hk : k = d => h.1 hk.symm)]

theorem rrfAddDense_eq_denseScoreList (k : ℕ) (rs : List DenseResult) :
    ∀ (rank : ℕ) (scores : List (String × ℚ))
      (dmap : List (String × (DenseResult ⊕ BMDoc))),
      (rs.filterMap denseDocId).Nodup →
      (∀ d ∈ rs.filterMap denseDocId, d ∉ keysA scores) →
      (rrfAddDense k rs rank scores dmap).1 =
        scores ++ denseScoreList k (rs.map denseDocId) rank := by
  induction rs with
  | nil => intro rank scores dmap _ _; simp [rrfAddDense, denseScoreList]
  | cons r rest ih =>
    intro rank scores dmap hnd hdisj
    cases hdoc : denseDocId r with
    | some i =>
      simp only [List.filterMap_cons, hdoc] at hnd hdisj
      rw [List.nodup_cons] at hnd
      have hi : i ∉ keysA scores := hdisj i (List.mem_cons_self i _)
      simp only [rrfAddDense, hdoc, List.map_cons, denseScoreList]
      rw [addScore_append _ hi, ih (rank + 1) _ _ hnd.2]
      · simp
      · intro d hd
        have hdisj2 := hdisj d (List.mem_cons_of_mem i hd)
        have hne : d ≠ i := fun hdi => hnd.1 (hdi ▸ hd)
        simp [keysA, List.map_append] at hdisj2 ⊢
        exact ⟨hdisj2, hne⟩
    | none =>
      simp only [List.filterMap_cons, hdoc] at hnd hdisj
      simp only [rrfAddDense, hdoc, List.map_cons, denseScoreList]
      exact ih (rank + 1) _ _ hnd hdisj

theorem denseScoreList_keys (k : ℕ) (ids : List (Option String)) :
    ∀ rank, (denseScoreList k ids rank).map Prod.fst = ids.filterMap id := by
  induction ids with
  | nil => intro rank; simp [denseScoreList]
  | cons i rest ih =>
    intro rank
    cases i with
    | some d => simp [denseScoreList, ih (rank + 1)]
    | none => simp [denseScoreList, ih (rank + 1)]

theorem denseScoreList_score_le (k : ℕ) (ids : List (Option String)) :
    ∀ (rank : ℕ) p, 1 ≤ rank → p ∈ denseScoreList k ids rank →
      p.2 ≤ 1 / ((k : ℚ) + (rank : ℚ)) := by
  induction ids with
  | nil => intro rank p _ hp; simp [denseScoreList] at hp
  | cons i rest ih =>
    intro rank p hrank hp
    have hpos : (0 : ℚ) < (k : ℚ) + (rank : ℚ) := by
      have : (1 : ℚ) ≤ (rank : ℚ) := by exact_mod_cast hrank
      linarith [Nat.cast_nonneg (α := ℚ) k]
    have hstep : 1 / ((k : ℚ) + ((rank : ℕ) + 1 : ℕ)) ≤ 1 / ((k : ℚ) + (rank : ℚ)) := by
      apply one_div_le_one_div_of_le hpos
      push_cast
      linarith
    cases i with
    | some d =>
      simp only [denseScoreList, List.mem_cons] at hp
      rcases hp with hp | hp
      · rw [hp]
      · exact le_trans (ih (rank + 1) p (by omega) hp) hstep
    | none =>
      simp only [denseScoreList] at hp
      exact le_trans (ih (rank + 1) p (by omega) hp) hstep

theorem denseScoreList_pairwise (k : ℕ) (ids : List (Option String)) :
    ∀ rank, 1 ≤ rank →
      (denseScoreList k ids rank).Pairwise (fun a b => b.2 ≤ a.2) := by
  induction ids with
  | nil => intro rank _; simp [denseScoreList]
  | cons i rest ih =>
    intro rank hrank
    cases i with
    | some d =>
      simp only [denseScoreList]
      refine List.Pairwise.cons ?_ (ih (rank + 1) (by omega))
      intro p hp
      have hpos : (0 : ℚ) < (k : ℚ) + (rank : ℚ) := by
        have : (1 : ℚ) ≤ (rank : ℚ) := by exact_mod_cast hrank
        linarith [Nat.cast_nonneg (α := ℚ) k]
      have := denseScoreList_score_le k rest (rank + 1) p (by omega) hp
      refine le_trans this ?_
      apply one_div_le_one_div_of_le hpos
      push_cast
      linarith
    | none =>
      simp only [denseScoreList]
      exact ih (rank + 1) (by omega)

/-- Sorting the image of a pairwise-descending score list under an
entry-builder that preserves key and score is the identity, and the ids
come out in list order. Shared helper. -/
theorem map_id_insertionSort_of_pairwise (g : String × ℚ → FusedEntry)
    (hgid : ∀ e, (g e).id = e.1) (hgsc : ∀ e, (g e).rrf_score = e.2)
    (l : List (String × ℚ)) (hl : l.Pairwise (fun a b => b.2 ≤ a.2)) :
    (List.insertionSort fusedGE (l.map g)).map FusedEntry.id = l.map Prod.fst := by
  have hsorted : (l.map g).Sorted fusedGE := by
    rw [List.Sorted, List.pairwise_map]
    refine hl.imp ?_
    intro a b h
    show (g b).rrf_score ≤ (g a).rrf_score
    rw [hgsc, hgsc]
    exact h
  rw [List.Sorted.insertionSort_eq hsorted, List.map_map]
  have hcomp : (FusedEntry.id ∘ g) = Prod.fst := funext hgid
  rw [hcomp]

/-- With an empty BM25 list the fused output preserves the dense list
verbatim (valid, duplicate-free ids, in order). Shared helper. -/
theorem rrf_no_bm25 (ds : List DenseResult)
    (hnd : (ds.filterMap denseDocId).Nodup) :
    (reciprocal_rank_fusion ds [] 60).map FusedEntry.id = ds.filterMap denseDocId := by
  have hsc : (rrfAddDense 60 ds 1 [] []).1 =
      denseScoreList 60 (ds.map denseDocId) 1 := by
    have := rrfAddDense_eq_denseScoreList 60 ds 1 [] [] hnd (by simp [keysA])
    simpa using this
  show (List.insertionSort fusedGE ((rrfAddDense 60 ds 1 [] []).1.map (fun e =>
      ({ id := e.1, rrf_score := e.2,
         payload := (getA (rrfAddDense 60 ds 1 [] []).2 e.1).map fusedPayload } :
        FusedEntry)))).map FusedEntry.id = ds.filterMap denseDocId
  rw [hsc]
  rw [map_id_insertionSort_of_pairwise _ (fun e => rfl) (fun e => rfl) _
    (denseScoreList_pairwise 60 _ 1 (by omega))]
  rw [denseScoreList_keys]
  simp [List.filterMap_map]

/-- C2: when no BM25 index exists for the area, `bm25_search` returns the
empty list and `hybrid_search` succeeds with the dense ids in dense order
(fusion degrades to dense-only ranking); when the dense search raises,
`hybrid_search` re-raises. -/
theorem hybrid_degrades_dense_only_or_reraises (engine : HybridEngine)
    (area q : String) (top_k : ℕ) (denseOut : Except String (List DenseResult)) :
    (getA engine.bm25_indexes area = none →
      (∀ tk, bm25_search engine area q tk = [])
      ∧ ∀ ds, denseOut = .ok ds → (ds.filterMap denseDocId).Nodup →
          ∃ fused, hybrid_search engine area q top_k denseOut = .ok fused
            ∧ fused.map FusedEntry.id = (ds.filterMap denseDocId).take top_k)
    ∧ (∀ e, denseOut = .error e →
        hybrid_search engine area q top_k denseOut = .error e) := by
  constructor
  · intro hidx
    have hempty : ∀ tk, bm25_search engine area q tk = [] := by
      intro tk
      simp [bm25_search, hidx]
    refine ⟨hempty, fun ds hds hnd => ?_⟩
    refine ⟨(reciprocal_rank_fusion ds [] 60).take top_k, ?_, ?_⟩
    · simp [hybrid_search, hds, hempty]
    · rw [List.map_take, rrf_no_bm25 ds hnd]
  · intro e he
    simp [hybrid_search, he]

/-- Concrete engine (no BM25 index at all) for the C2 witness. -/
def c2engine : HybridEngine := { bm25_indexes := [] }

/-- Concrete dense result list for the C2 witness. -/
def c2dense : List DenseResult := [{ id := some "x" }, { id := some "y" }]

/-- Witness for C2: with no index for area "pharmacy", hybrid search over
two dense results succeeds and keeps the dense order `x, y`. -/
theorem hybrid_degrades_dense_only_or_reraises_witness :
    (getA c2engine.bm25_indexes "pharmacy" = none)
    ∧ (c2dense.filterMap denseDocId).Nodup
    ∧ (∃ fused,
        hybrid_search c2engine "pharmacy" "refill policy" 5 (Except.ok c2dense) = .ok fused
        ∧ fused.map FusedEntry.id = (c2dense.filterMap denseDocId).take 5) :=
  ⟨rfl, by decide,
    ((hybrid_degrades_dense_only_or_reraises c2engine "pharmacy" "refill policy" 5
      (Except.ok c2dense)).1 rfl).2 c2dense rfl (by decide)⟩

/-! ### `vectorstore/retrievers/dispatcher.py` -/

/-- `RetrievedDocument` of `retrievers/base.py`. -/
structure RetrievedDocument where
  title : String
  content : String
  source : String
  document_type : String
  score : ℚ
  url : Option String := none
  metadata : List (String × String) := []
deriving DecidableEq

/-- `RetrievalResult` of `retrievers/base.py`. -/
structure RetrievalResult where
  documents : List RetrievedDocument
  retriever_name : String
  source : String
  message : String := "success"
  error : Option String := none
deriving DecidableEq

/-- A retriever: a name plus its (awaited) `retrieve(query, business_area,
limit, filters)` behaviour. -/
structure Retriever where
  name : String
  retrieve : String → String → ℕ → List (String × String) → RetrievalResult

/-- The relevant slice of `core/config.py` settings, as consumed by the
dispatcher and the code-source registry: the parsed business area list,
the per-area source configuration map, the per-area retriever override
map, and the global CodeQL flag. -/
structure Settings where
  business_areas_list : List String
  sources_config_map : List (String × List (String × List (String × String)))
  retriever_overrides_map : List (String × List (String × List String))
  codeql_enabled : Bool

/-- `DEFAULT_SOURCE_RETRIEVERS`. -/
def defaultSourceRetrievers : String → Option (List String)
  | "confluence" => some ["docs"]
  | "firestore" => some ["docs"]
  | "gitlab" => some ["code"]
  | "openmetadata" => some ["lineage"]
  | "codeql" => some ["graph"]
  | _ => none

/-- `overrides.get(source_name, DEFAULT_SOURCE_RETRIEVERS.get(source_name))`. -/
def resolveNames (overrides : List (String × List String)) (source_name : String) :
    Option (List String) :=
  match getA overrides source_name with
  | some l => some l
  | none => defaultSourceRetrievers source_name

/-- `combined_filters = dict(filters or {});
combined_filters.setdefault("source", source_name)` — the forced source
filter is only added when the caller did not provide one. -/
def combinedFilters (filters : List (String × String)) (source_name : String) :
    List (String × String) :=
  if (getA filters "source").isSome then filters else filters ++ [("source", source_name)]

/-- One retriever slot of the dispatcher loop: a synthetic failed result
when the name is unregistered, otherwise the retriever output on the
merged filters. -/
def dispatchOne (registry : List (String × Retriever)) (q area : String) (limit : ℕ)
    (filters : List (String × String)) (source_name retriever_name : String) :
    RetrievalResult :=
  match getA registry retriever_name with
  | none =>
    { documents := [], retriever_name := retriever_name, source := source_name,
      message := "retriever_not_found",
      error := some ("Retriever " ++ retriever_name ++ " is not registered.") }
  | some r => r.retrieve q area limit (combinedFilters filters source_name)

/-- The synthetic result when a source resolves to no retriever names. -/
def noRetrieverResult (source_name : String) : RetrievalResult :=
  { documents := [], retriever_name := "none", source := source_name,
    message := "no_retriever",
    error := some ("No retriever configured for source " ++ source_name) }

/-- The per-source body of the dispatcher loop. -/
def sourceSlot (registry : List (String × Retriever))
    (overrides : List (String × List String)) (q area : String) (limit : ℕ)
    (filters : List (String × String)) (source_name : String) :
    List RetrievalResult :=
  match resolveNames overrides source_name with
  | none => [noRetrieverResult source_name]
  | some [] => [noRetrieverResult source_name]
  | some (n :: ns) =>
    (n :: ns).map (dispatchOne registry q area limit filters source_name)

/-- Keep the first occurrence of each element (dict-comprehension key
semantics for a caller-supplied `sources` list with duplicates). -/
def dedupFirst : List String → List String := go []
where
  go : List String → List String → List String
  | _, [] => []
  | seen, x :: xs => if x ∈ seen then go seen xs else x :: go (x :: seen) xs

/-- The source configs the dispatcher iterates: the area's configured
sources, optionally restricted (and re-ordered) by a truthy caller-supplied
`sources` list. -/
def selectedConfigs (settings : Settings) (area : String)
    (sources : Option (List String)) : List (String × List (String × String)) :=
  let source_configs := (getA settings.sources_config_map area).getD []
  match sources with
  | none => source_configs
  | some ss =>
    if ss = [] then source_configs
    else (dedupFirst (ss.filter (fun s => (getA source_configs s).isSome))).map
      (fun s => (s, (getA source_configs s).getD []))

/-- `RetrieverDispatcher.retrieve`: rejects an unknown business area, then
builds the per-source result map. -/
def dispatcherRetrieve (settings : Settings) (registry : List (String × Retriever))
    (q area : String) (limit : ℕ) (sources : Option (List String))
    (filters : List (String × String)) :
    Except String (List (String × List RetrievalResult)) :=
  if area ∈ settings.business_areas_list then
    Except.ok ((selectedConfigs settings area sources).map (fun sc =>
      (sc.1, sourceSlot registry ((getA settings.retriever_overrides_map area).getD [])
        q area limit filters sc.1)))
  else
    Except.error ("Invalid business area " ++ area)

/-- C3: an unknown business area makes `retrieve` fail up front, whatever
the retriever registry holds (no retriever can run); a known area always
yields a result map with one slot list per selected source; a source
whose retriever-name resolution is empty gets exactly one synthetic
errored result; an unregistered retriever name contributes a synthetic
errored result for its slot only, while a registered name contributes the
retriever's real output. -/
theorem dispatcher_partial_failure_isolation (settings : Settings)
    (registry : List (String × Retriever)) (q area : String) (limit : ℕ)
    (sources : Option (List String)) (filters : List (String × String)) :
    (area ∉ settings.business_areas_list →
      ∀ reg : List (String × Retriever),
        dispatcherRetrieve settings reg q area limit sources filters =
          Except.error ("Invalid business area " ++ area))
    ∧ (area ∈ settings.business_areas_list →
        dispatcherRetrieve settings registry q area limit sources filters =
          Except.ok ((selectedConfigs settings area sources).map (fun sc =>
            (sc.1, sourceSlot registry
              ((getA settings.retriever_overrides_map area).getD [])
              q area limit filters sc.1))))
    ∧ (∀ ovr source_name, (resolveNames ovr source_name = none
          ∨ resolveNames ovr source_name = some []) →
        sourceSlot registry ovr q area limit filters source_name =
          [noRetrieverResult source_name]
        ∧ (noRetrieverResult source_name).error.isSome)
    ∧ (∀ ovr source_name names, resolveNames ovr source_name = some names →
        names ≠ [] →
        sourceSlot registry ovr q area limit filters source_name =
          names.map (dispatchOne registry q area limit filters source_name))
    ∧ (∀ source_name retriever_name, getA registry retriever_name = none →
        (dispatchOne registry q area limit filters source_name retriever_name).error.isSome)
    ∧ (∀ source_name retriever_name r, getA registry retriever_name = some r →
        dispatchOne registry q area limit filters source_name retriever_name =
          r.retrieve q area limit (combinedFilters filters source_name)) := by
  refine ⟨?_, ?_, ?_, ?_, ?_, ?_⟩
  · intro hout reg
    simp [dispatcherRetrieve, hout]
  · intro hin
    simp [dispatcherRetrieve, hin]
  · intro ovr source_name hres
    rcases hres with h | h <;> simp [sourceSlot, h, noRetrieverResult]
  · intro ovr source_name names hres hne
    cases names with
    | nil => exact absurd rfl hne
    | cons n ns => simp [sourceSlot, hres]
  · intro source_name retriever_name hreg
    simp [dispatchOne, hreg]
  · intro source_name retriever_name r hreg
    simp [dispatchOne, hreg]

/-- Probe retriever for the dispatcher witnesses: echoes the `source`
filter it receives into its message. -/
def probeRetriever : Retriever :=
  { name := "docs",
    retrieve := fun _q _a _l f =>
      { documents := [], retriever_name := "docs",
        source := (getA f "source").getD "absent",
        message := (getA f "source").getD "absent", error := none } }

/-- Concrete settings for the dispatcher witnesses: one area with a
documentation source and an unconfigured source. -/
def c3settings : Settings :=
  { business_areas_list := ["pharmacy"],
    sources_config_map := [("pharmacy", [("confluence", []), ("mystery", [])])],
    retriever_overrides_map := [],
    codeql_enabled := false }

/-- Witness for C3 at concrete settings: the unknown area "claims" fails
for every registry; for "pharmacy" the map has a real slot for
"confluence" and a synthetic errored slot for "mystery". -/
theorem dispatcher_partial_failure_isolation_witness :
    ("claims" ∉ c3settings.business_areas_list)
    ∧ (∀ reg : List (String × Retriever),
        dispatcherRetrieve c3settings reg "q" "claims" 5 none [] =
          Except.error ("Invalid business area " ++ "claims"))
    ∧ ("pharmacy" ∈ c3settings.business_areas_list)
    ∧ dispatcherRetrieve c3settings [("docs", probeRetriever)] "q" "pharmacy" 5 none [] =
        Except.ok ((selectedConfigs c3settings "pharmacy" none).map (fun sc =>
          (sc.1, sourceSlot [("docs", probeRetriever)]
            ((getA c3settings.retriever_overrides_map "pharmacy").getD [])
            "q" "pharmacy" 5 [] sc.1)))
    ∧ (resolveNames [] "mystery" = none)
    ∧ sourceSlot [("docs", probeRetriever)] [] "q" "pharmacy" 5 [] "mystery" =
        [noRetrieverResult "mystery"]
    ∧ (noRetrieverResult "mystery").error.isSome := by
  have h := dispatcher_partial_failure_isolation c3settings [("docs", probeRetriever)]
    "q" "pharmacy" 5 none []
  have h2 := dispatcher_partial_failure_isolation c3settings [("docs", probeRetriever)]
    "q" "claims" 5 none []
  refine ⟨by decide, fun reg => (h2.1 (by decide) reg), by decide,
    h.2.1 (by decide), rfl, ?_, ?_⟩
  · exact (h.2.2.1 [] "mystery" (Or.inl rfl)).1
  · exact (h.2.2.1 [] "mystery" (Or.inl rfl)).2

/-- C7 counterexample: the claim says the forced `source = source_name`
filter wins even when the caller already supplies a `source` key; in the
code `setdefault` keeps the caller value, so the probe retriever observes
"caller", not "confluence". -/
theorem dispatcher_source_filter_counterexample :
    dispatcherRetrieve c3settings [("docs", probeRetriever)] "q" "pharmacy" 5
        (some ["confluence"]) [("source", "caller")] =
      Except.ok [("confluence",
        [{ documents := [], retriever_name := "docs", source := "caller",
           message := "caller", error := none }])]
    ∧ ("caller" : String) ≠ "confluence" := by
  constructor
  · rfl
  · decide

/-- C7 (amended): the filters delivered to a dispatched retriever are the
caller filters with `source = source_name` added only when the caller
supplied no `source` key; an existing caller `source` entry is preserved
(`setdefault` semantics), and all other keys pass through unchanged. -/
theorem dispatcher_source_filter_setdefault (filters : List (String × String))
    (source_name : String) :
    getA (combinedFilters filters source_name) "source" =
      some ((getA filters "source").getD source_name)
    ∧ (∀ key, key ≠ "source" →
        getA (combinedFilters filters source_name) key = getA filters key)
    ∧ (∀ (registry : List (String × Retriever)) (q area : String) (limit : ℕ)
        (retriever_name : String) (r : Retriever),
        getA registry retriever_name = some r →
        dispatchOne registry q area limit filters source_name retriever_name =
          r.retrieve q area limit (combinedFilters filters source_name)) := by
  have hgetapp : ∀ (l1 l2 : List (String × String)) (key : String),
      getA (l1 ++ l2) key = ((getA l1 key).rec (getA l2 key) (fun v => some v)) := by
    intro l1 l2 key
    induction l1 with
    | nil => simp [getA]
    | cons p rest ih =>
      obtain ⟨k, w⟩ := p
      by_cases hk : k = key
      · simp [getA, hk]
      · simp [getA, hk, ih]
  refine ⟨?_, ?_, ?_⟩
  · unfold combinedFilters
    cases hsrc : getA filters "source" with
    | some v => simp [hsrc]
    | none =>
      rw [if_neg (by simp [hsrc])]
      rw [hgetapp, hsrc]
      simp [getA]
  · intro key hkey
    unfold combinedFilters
    cases hsrc : getA filters "source" with
    | some v => simp [hsrc]
    | none =>
      rw [if_neg (by simp [hsrc])]
      rw [hgetapp]
      cases hk : getA filters key with
      | some v => simp
      | none =>
        simp [getA]
        exact fun h => hkey h.symm
  · intro registry q area limit retriever_name r hreg
    simp [dispatchOne, hreg]

/-- Witness for the amended C7: with caller filters carrying
`source = caller`, the delivered `source` is "caller"; with no caller
`source`, it is the dispatched source name; other keys pass through. -/
theorem dispatcher_source_filter_setdefault_witness :
    getA (combinedFilters [("source", "caller")] "confluence") "source" =
      some ((getA [("source", "caller")] "source").getD "confluence")
    ∧ getA (combinedFilters [("limit", "5")] "confluence") "source" =
      some ((getA [("limit", "5")] "source").getD "confluence")
    ∧ getA (combinedFilters [("limit", "5")] "confluence") "limit" =
      getA [("limit", "5")] "limit"
    ∧ dispatchOne [("docs", probeRetriever)] "q" "pharmacy" 5
        [("source", "caller")] "confluence" "docs" =
      probeRetriever.retrieve "q" "pharmacy" 5
        (combinedFilters [("source", "caller")] "confluence") :=
  ⟨(dispatcher_source_filter_setdefault [("source", "caller")] "confluence").1,
   (dispatcher_source_filter_setdefault [("limit", "5")] "confluence").1,
   (dispatcher_source_filter_setdefault [("limit", "5")] "confluence").2.1 "limit" (by decide),
   (dispatcher_source_filter_setdefault [("source", "caller")] "confluence").2.2
     [("docs", probeRetriever)] "q" "pharmacy" 5 "docs" probeRetriever rfl⟩

/-! ### `codeql/source_registry.py` -/

/-- The `CodeSource` dataclass (datetimes abstracted as natural ticks). -/
structure CodeSource where
  source_id : String
  business_area : String
  source_type : String
  path : String
  languages : List String
  name : Option String := none
  last_analyzed_commit : Option String := none
  last_analyzed_time : Option ℕ := none
  enabled : Bool := true
  metadata : List (String × String) := []
deriving DecidableEq

/-- `path.replace("/", "_").replace("\\", "_")`: both patterns are single
characters, so the two sequential replaces are one character substitution. -/
def safePath (path : String) : String :=
  String.mk (path.data.map (fun ch => if ch = '/' ∨ ch = '\\' then '_' else ch))

/-- The generated id `f"{business_area}_{source_type}_{safe_path}"`. -/
def genSourceId (business_area source_type path : String) : String :=
  business_area ++ "_" ++ source_type ++ "_" ++ safePath path

/-- `CodeSourceRegistry.register`: generates the id when the given one is
falsy, then unconditionally stores a fresh `CodeSource` under it
(overwriting any existing entry). -/
def register (registry : List (String × CodeSource))
    (business_area source_type path : String) (languages : List String)
    (name : Option String) (source_id : Option String) (enabled : Bool)
    (metadata : List (String × String)) :
    String × List (String × CodeSource) :=
  let sid := if truthy source_id then source_id.getD "" else
    genSourceId business_area source_type path
  let source : CodeSource :=
    { source_id := sid, business_area := business_area, source_type := source_type,
      path := path, languages := languages,
      name := some (if truthy name then name.getD "" else path),
      last_analyzed_commit := none, last_analyzed_time := none,
      enabled := enabled, metadata := metadata }
  (sid, setA registry sid source)

/-- `CodeSourceRegistry.update_commit_hash`: raises on an unknown id, else
sets the commit hash and stamps `last_analyzed_time = now`. -/
def update_commit_hash (registry : List (String × CodeSource))
    (source_id commit_hash : String) (now : ℕ) :
    Except String (List (String × CodeSource)) :=
  match getA registry source_id with
  | none => Except.error ("Source not found: " ++ source_id)
  | some _ => Except.ok (modifyA registry source_id (fun s =>
      { s with
        last_analyzed_commit := some commit_hash,
        last_analyzed_time := some now }))

/-- ASCII `str.lower()` (config values are ASCII). -/
def pyLower (s : String) : String :=
  String.mk (s.data.map Char.toLower)

/-- `CodeSourceRegistry.is_codeql_enabled`: global flag AND a present,
non-empty per-area `codeql` config block AND its `enabled` value
(defaulting to "true") lowercased equal to "true". -/
def is_codeql_enabled (settings : Settings) (business_area : String) : Bool :=
  if settings.codeql_enabled = false then false
  else
    match getA ((getA settings.sources_config_map business_area).getD []) "codeql" with
    | none => false
    | some cfg =>
      if cfg = [] then false
      else decide (pyLower ((getA cfg "enabled").getD "true") = "true")

/-- The spec-side reading of C6: global code-graph flag set AND the area
has a non-empty codeql block AND the block's own enabled flag (default
"true") is true. -/
def codeqlEnabledSpec (settings : Settings) (business_area : String) : Prop :=
  settings.codeql_enabled = true
  ∧ ∃ cfg, getA ((getA settings.sources_config_map business_area).getD [])
        "codeql" = some cfg
      ∧ cfg ≠ []
      ∧ pyLower ((getA cfg "enabled").getD "true") = "true"

/-- C6: `is_codeql_enabled` returns true exactly when the global
code-graph flag is set AND the area has a non-empty codeql block whose
own enabled flag is true; if either conjunct fails it returns false. -/
theorem is_codeql_enabled_iff (settings : Settings) (business_area : String) :
    is_codeql_enabled settings business_area = true ↔
      codeqlEnabledSpec settings business_area := by
  unfold is_codeql_enabled codeqlEnabledSpec
  cases hglob : settings.codeql_enabled with
  | false => simp [hglob]
  | true =>
    simp only [hglob, Bool.true_eq_false, if_neg (by simp : ¬False)]
    cases hcfg : getA ((getA settings.sources_config_map business_area).getD [])
        "codeql" with
    | none => simp
    | some cfg =>
      by_cases hne : cfg = []
      · simp [hne]
      · simp [hne]

theorem getA_setA {α : Type} (l : List (String × α)) (key d : String) (v : α) :
    getA (setA l key v) d = if d = key then some v else getA l d := by
  induction l with
  | nil =>
    simp only [setA, getA]
    split_ifs with h1 h2 <;> simp_all [eq_comm]
  | cons p rest ih =>
    obtain ⟨k, w⟩ := p
    simp only [setA, getA]
    split_ifs with hk hd <;>
      simp_all [getA, eq_comm] <;>
      split_ifs <;> simp_all

theorem keysA_setA {α : Type} (l : List (String × α)) (key : String) (v : α) :
    keysA (setA l key v) =
      if key ∈ keysA l then keysA l else keysA l ++ [key] := by
  induction l with
  | nil => simp [setA, keysA]
  | cons p rest ih =>
    obtain ⟨k, w⟩ := p
    simp only [setA, keysA, List.map_cons]
    split_ifs with hk <;> simp_all [keysA, eq_comm] <;> split_ifs <;> simp_all

theorem nodup_keysA_setA {α : Type} {l : List (String × α)} {key : String} {v : α}
    (h : (keysA l).Nodup) : (keysA (setA l key v)).Nodup := by
  rw [keysA_setA]
  split_ifs with hmem
  · exact h
  · simpa using List.Nodup.append h (List.nodup_singleton key)
      (by simpa [List.disjoint_singleton] using hmem)

theorem mem_keysA_setA {α : Type} (l : List (String × α)) (key : String) (v : α) :
    key ∈ keysA (setA l key v) := by
  rw [keysA_setA]
  split_ifs with hmem
  · exact hmem
  · simp

/-- C5 (amended): two `register` calls with identical
(area, type, path) and no explicit id return the same generated id and
leave exactly one entry under it, but the second call replaces the entry
with a fresh record: `last_analyzed_commit` and `last_analyzed_time` are
reset to `None` (they are not preserved). -/
theorem register_twice_same_id_overwrites_fresh
    (registry : List (String × CodeSource)) (area stype path : String)
    (langs : List String) (hnd : (keysA registry).Nodup) :
    (register registry area stype path langs none none true []).1 =
      genSourceId area stype path
    ∧ (register (register registry area stype path langs none none true []).2
        area stype path langs none none true []).1 = genSourceId area stype path
    ∧ (keysA (register (register registry area stype path langs none none true []).2
        area stype path langs none none true []).2).count
        (genSourceId area stype path) = 1
    ∧ getA (register (register registry area stype path langs none none true []).2
        area stype path langs none none true []).2 (genSourceId area stype path) =
      some { source_id := genSourceId area stype path, business_area := area,
             source_type := stype, path := path, languages := langs,
             name := some path, last_analyzed_commit := none,
             last_analyzed_time := none, enabled := true, metadata := [] } := by
  refine ⟨rfl, rfl, ?_, ?_⟩
  · show (keysA (setA (setA registry (genSourceId area stype path) _)
      (genSourceId area stype path) _)).count (genSourceId area stype path) = 1
    rw [keysA_setA]
    rw [if_pos (mem_keysA_setA registry (genSourceId area stype path) _)]
    have hnd2 : (keysA (setA registry (genSourceId area stype path)
        ({ source_id := genSourceId area stype path, business_area := area,
           source_type := stype, path := path, languages := langs,
           name := some path, enabled := true, metadata := [] } : CodeSource))).Nodup :=
      nodup_keysA_setA hnd
    exact List.count_eq_one_of_mem hnd2 (mem_keysA_setA registry _ _)
  · show getA (setA (setA registry (genSourceId area stype path) _)
      (genSourceId area stype path) _) (genSourceId area stype path) = _
    rw [getA_setA]
    simp [truthy]

/-- Witness for the amended C5 at the empty registry. -/
theorem register_twice_same_id_overwrites_fresh_witness :
    ((keysA ([] : List (String × CodeSource))).Nodup)
    ∧ getA (register (register [] "pharmacy" "gitlab" "org/repo" ["python"]
        none none true []).2 "pharmacy" "gitlab" "org/repo" ["python"]
        none none true []).2 (genSourceId "pharmacy" "gitlab" "org/repo") =
      some { source_id := genSourceId "pharmacy" "gitlab" "org/repo",
             business_area := "pharmacy", source_type := "gitlab", path := "org/repo",
             languages := ["python"], name := some "org/repo",
             last_analyzed_commit := none, last_analyzed_time := none,
             enabled := true, metadata := [] } :=
  ⟨by decide,
    (register_twice_same_id_overwrites_fresh [] "pharmacy" "gitlab" "org/repo"
      ["python"] (by decide)).2.2.2⟩

/-- Registry after the first C5 registration. -/
def c5reg1 : List (String × CodeSource) :=
  (register [] "pharmacy" "gitlab" "org/repo" ["python"] none none true []).2

/-- The generated C5 source id. -/
def c5id : String := (register [] "pharmacy" "gitlab" "org/repo" ["python"]
  none none true []).1

/-- Registry after recording an analyzed commit on the C5 source. -/
def c5reg2 : List (String × CodeSource) :=
  match update_commit_hash c5reg1 c5id "abc123" 7 with
  | Except.ok r => r
  | Except.error _ => []

/-- Registry after re-registering the same (area, type, path). -/
def c5reg3 : List (String × CodeSource) :=
  (register c5reg2 "pharmacy" "gitlab" "org/repo" ["python"] none none true []).2

/-- C5 counterexample: after an analyzed commit was recorded, a second
`register` with the identical (area, type, path) resets
`last_analyzed_commit` and `last_analyzed_time` to `None`, contradicting
"re-registration resets nothing else". -/
theorem register_rereg_resets_counterexample :
    (getA c5reg2 c5id).map CodeSource.last_analyzed_commit = some (some "abc123")
    ∧ (getA c5reg2 c5id).map CodeSource.last_analyzed_time = some (some 7)
    ∧ (getA c5reg3 c5id).map CodeSource.last_analyzed_commit = some none
    ∧ (getA c5reg3 c5id).map CodeSource.last_analyzed_time = some none := by
  refine ⟨by decide, by decide, by decide, by decide⟩

/-! ### `codeql/builder.py` -/

/-- The external CodeQL CLI: revision lookup and database creation
(creation may raise, modelled as `Except`). -/
structure CodeQLCLI where
  get_current_commit : String → Option String
  database_create : String → String → String → Option String → Except String String

/-- The external database storage: lookup of a stored database path and
storing a built database (which may raise). -/
structure CodeQLStorage where
  get_database_path : String → String → String → Option String
  store_database : String → String → String → String → Except String String

theorem getA_modifyA {α : Type} (l : List (String × α)) (key d : String)
    (f : α → α) :
    getA (modifyA l key f) d = if d = key then (getA l key).map f else getA l d := by
  induction l with
  | nil =>
    simp only [modifyA, getA]
    split_ifs <;> simp
  | cons p rest ih =>
    obtain ⟨k, w⟩ := p
    simp only [modifyA, getA]
    split_ifs with hk hd <;>
      simp_all [getA, eq_comm] <;>
      split_ifs <;> simp_all

/-- The build branch of `build_database`: create in a temp dir, store,
then record the commit hash when it is truthy; any raise inside the
`try` yields `None` and leaves the registry as it was. -/
def buildStep (cli : CodeQLCLI) (storage : CodeQLStorage)
    (registry : List (String × CodeSource)) (now : ℕ)
    (source_id repo_path language source_code : String)
    (build_command : Option String) (business_area : String)
    (current_commit : Option String) :
    Option String × List (String × CodeSource) :=
  let db_path := String.mk (repo_path.data.map (fun ch =>
    if ch = '/' then '_' else ch)) ++ "_" ++ language ++ ".db"
  match cli.database_create db_path source_code language build_command with
  | Except.error _ => (none, registry)
  | Except.ok built_db =>
    match storage.store_database built_db business_area repo_path language with
    | Except.error _ => (none, registry)
    | Except.ok stored_path =>
      if truthy current_commit then
        match update_commit_hash registry source_id (current_commit.getD "") now with
        | Except.ok registry2 => (some stored_path, registry2)
        | Except.error _ => (none, registry)
      else (some stored_path, registry)

/-- `CodeQLDatabaseBuilder.build_database`: no CLI or unknown source give
`None`; an unchanged non-`None` revision with a truthy stored database
path is a cache hit returning that path; otherwise the build branch runs. -/
def build_database (cli : Option CodeQLCLI) (storage : CodeQLStorage)
    (registry : List (String × CodeSource)) (now : ℕ)
    (source_id repo_path language : String)
    (source_code_path build_command : Option String) :
    Option String × List (String × CodeSource) :=
  match cli with
  | none => (none, registry)
  | some cli =>
    match getA registry source_id with
    | none => (none, registry)
    | some source =>
      let business_area := source.business_area
      let source_code := source_code_path.getD repo_path
      let current_commit := cli.get_current_commit source_code
      let last_commit := source.last_analyzed_commit
      if current_commit = last_commit ∧ current_commit.isSome then
        match storage.get_database_path business_area repo_path language with
        | some existing_db =>
          if existing_db ≠ "" then (some existing_db, registry)
          else buildStep cli storage registry now source_id repo_path language
            source_code build_command business_area current_commit
        | none => buildStep cli storage registry now source_id repo_path language
            source_code build_command business_area current_commit
      else buildStep cli storage registry now source_id repo_path language
        source_code build_command business_area current_commit

/-- C4: when the CLI-reported current revision equals the stored
`last_analyzed_commit` and a previously stored database path exists for
(area, repo, language), `build_database` returns that path without
invoking `database_create` (the result is the same for every create
function) and without touching the registry; and `update_commit_hash` on
a registered source sets `last_analyzed_commit` to the given hash and
`last_analyzed_time` to the current time. -/
theorem builder_cache_hit_and_update_commit
    (registry : List (String × CodeSource)) (now : ℕ)
    (source_id repo_path language : String)
    (source_code_path build_command : Option String)
    (source : CodeSource) (c p : String)
    (storage : CodeQLStorage) (gcc : String → Option String) :
    (getA registry source_id = some source →
      gcc (source_code_path.getD repo_path) = some c →
      source.last_analyzed_commit = some c →
      storage.get_database_path source.business_area repo_path language = some p →
      p ≠ "" →
      ∀ createFn,
        build_database (some { get_current_commit := gcc, database_create := createFn })
          storage registry now source_id repo_path language
          source_code_path build_command = (some p, registry))
    ∧ (∀ (reg : List (String × CodeSource)) (sid h : String) (t : ℕ) (src : CodeSource),
        getA reg sid = some src →
        ∃ reg2, update_commit_hash reg sid h t = Except.ok reg2
          ∧ getA reg2 sid = some { src with
              last_analyzed_commit := some h, last_analyzed_time := some t }) := by
  constructor
  · intro hsrc hgcc hlast hget hp createFn
    simp only [build_database, hsrc, hgcc, hlast, hget]
    simp [hp]
  · intro reg sid h t src hsrc
    refine ⟨modifyA reg sid (fun s =>
      { s with last_analyzed_commit := some h, last_analyzed_time := some t }), ?_, ?_⟩
    · simp [update_commit_hash, hsrc]
    · rw [getA_modifyA, if_pos rfl, hsrc]
      rfl

/-- Concrete registered source for the C4 witness. -/
def c4source : CodeSource :=
  { source_id := "sid", business_area := "pharmacy", source_type := "gitlab",
    path := "org/repo", languages := ["python"],
    last_analyzed_commit := some "abc123" }

/-- Concrete storage for the C4 witness: one stored database. -/
def c4storage : CodeQLStorage :=
  { get_database_path := fun _ _ _ => some "/data/db/pharmacy_org_repo_python",
    store_database := fun _ _ _ _ => Except.error "unused" }

/-- Witness for C4: with current revision = stored revision = "abc123"
and a stored database, every create function gives the cached path and
the registry is untouched; and `update_commit_hash` stamps hash and time. -/
theorem builder_cache_hit_and_update_commit_witness :
    (getA [("sid", c4source)] "sid" = some c4source)
    ∧ (∀ createFn,
        build_database (some { get_current_commit := fun _ => some "abc123",
                               database_create := createFn })
          c4storage [("sid", c4source)] 9 "sid" "org/repo" "python" none none =
        (some "/data/db/pharmacy_org_repo_python", [("sid", c4source)]))
    ∧ (∃ reg2, update_commit_hash [("sid", c4source)] "sid" "def456" 9 = Except.ok reg2
        ∧ getA reg2 "sid" = some { c4source with
            last_analyzed_commit := some "def456", last_analyzed_time := some 9 }) := by
  have h := builder_cache_hit_and_update_commit [("sid", c4source)] 9 "sid" "org/repo"
    "python" none none c4source "abc123" "/data/db/pharmacy_org_repo_python"
    c4storage (fun _ => some "abc123")
  exact ⟨rfl, h.1 rfl rfl rfl rfl (by decide),
    h.2 [("sid", c4source)] "sid" "def456" 9 c4source rfl⟩

/-! ### `codeql/analysis_service.py` -/

/-- Rows returned by `execute_all_queries` (query name → structured rows). -/
structure QueryResults where
  results : List (String × List (List String)) := []
deriving DecidableEq

/-- Node/edge counts returned by graph emission. -/
structure GraphStats where
  nodes_created : ℕ := 0
  edges_created : ℕ := 0
deriving DecidableEq

/-- The collaborators `analyze_source` drives, as effectful functions:
`build` is `builder.build_database` (threading the registry, may raise),
`execute_all_queries` is the query executor, `emit` is the graph emitter;
either of the latter two may raise inside the per-language `try`. -/
structure AnalysisDeps where
  build : List (String × CodeSource) → String → String → String → Option String →
    Except String (Option String) × List (String × CodeSource)
  execute_all_queries : String → String → Except String QueryResults
  emit : QueryResults → String → String → String → Except String GraphStats

/-- Per-language result under the `databases` key. -/
structure LangDBResult where
  status : String
  path : Option String := none
  error : Option String := none
deriving DecidableEq

/-- The dict `analyze_source` returns, plus the threaded registry state. -/
structure AnalysisResult where
  status : String
  reason : Option String := none
  error : Option String := none
  source_id : Option String := none
  business_area : Option String := none
  repo_path : Option String := none
  databases : List (String × LangDBResult) := []
  queries : List (String × QueryResults) := []
  graph : List (String × GraphStats) := []
deriving DecidableEq

/-- Accumulator of the per-language loop of `analyze_source`. -/
structure LoopState where
  databases : List (String × LangDBResult) := []
  queries : List (String × QueryResults) := []
  graph : List (String × GraphStats) := []
  registry : List (String × CodeSource) := []

/-- One iteration of the per-language loop: build, then query, then emit;
a raise at any point records an errored `databases` entry for this
language only and the loop continues. -/
def analyzeLang (deps : AnalysisDeps) (source_id repo_path business_area : String)
    (st : LoopState) (language : String) : LoopState :=
  match deps.build st.registry source_id repo_path language (some repo_path) with
  | (Except.error e, reg2) =>
    { st with
      databases := setA st.databases language { status := "error", error := some e },
      registry := reg2 }
  | (Except.ok none, reg2) =>
    { st with
      databases := setA st.databases language { status := "failed" },
      registry := reg2 }
  | (Except.ok (some db_path), reg2) =>
    let dbs := setA st.databases language { status := "success", path := some db_path }
    match deps.execute_all_queries db_path language with
    | Except.error e =>
      { st with
        databases := setA dbs language { status := "error", error := some e },
        registry := reg2 }
    | Except.ok qres =>
      let qs := setA st.queries language qres
      match deps.emit qres business_area repo_path language with
      | Except.error e =>
        { st with
          databases := setA dbs language { status := "error", error := some e },
          queries := qs, registry := reg2 }
      | Except.ok gstats =>
        { st with
          databases := dbs, queries := qs,
          graph := setA st.graph language gstats, registry := reg2 }

/-- `CodeQLAnalysisService.analyze_source`: unknown source is an error;
a disabled source or a non-code-graph-enabled area is skipped; otherwise
every language is processed and the overall status is set to success. -/
def analyze_source (settings : Settings) (deps : AnalysisDeps)
    (registry : List (String × CodeSource)) (source_id : String) :
    AnalysisResult × List (String × CodeSource) :=
  match getA registry source_id with
  | none =>
    ({ status := "error", error := some ("Source not found: " ++ source_id) }, registry)
  | some source =>
    if source.enabled = false then
      ({ status := "skipped", reason := some "source_disabled" }, registry)
    else if is_codeql_enabled settings source.business_area = false then
      ({ status := "skipped", reason := some "codeql_not_enabled_for_business_area" },
        registry)
    else
      let st := source.languages.foldl
        (analyzeLang deps source_id source.path source.business_area)
        { databases := [], queries := [], graph := [], registry := registry }
      ({ status := "success", source_id := some source_id,
         business_area := some source.business_area, repo_path := some source.path,
         databases := st.databases, queries := st.queries, graph := st.graph },
        st.registry)

/-- C8: a registered but disabled source, or one whose area is not
code-graph-enabled, is skipped with the corresponding reason; the result
is the same for every build/query/emit collaborator (none of them runs)
and the registry comes back unchanged (in particular
`last_analyzed_commit` and `last_analyzed_time` are untouched). -/
theorem analyze_source_skips_without_effects (settings : Settings)
    (registry : List (String × CodeSource)) (source_id : String)
    (source : CodeSource) :
    getA registry source_id = some source →
    ((source.enabled = false →
      ∀ deps, analyze_source settings deps registry source_id =
        ({ status := "skipped", reason := some "source_disabled" }, registry))
    ∧ (source.enabled = true →
      is_codeql_enabled settings source.business_area = false →
      ∀ deps, analyze_source settings deps registry source_id =
        ({ status := "skipped",
           reason := some "codeql_not_enabled_for_business_area" }, registry))) := by
  intro hsrc
  constructor
  · intro hdis deps
    simp [analyze_source, hsrc, hdis]
  · intro hen hcq deps
    simp [analyze_source, hsrc, hen, hcq]

/-- Settings with the global CodeQL flag off, for the C8 witness. -/
def c8settings : Settings :=
  { business_areas_list := ["pharmacy"],
    sources_config_map := [("pharmacy", [("codeql", [("enabled", "true")])])],
    retriever_overrides_map := [], codeql_enabled := false }

/-- A disabled source for the C8 witness. -/
def c8disabled : CodeSource :=
  { source_id := "d", business_area := "pharmacy", source_type := "gitlab",
    path := "org/repo", languages := ["python", "java"], enabled := false }

/-- An enabled source for the C8 witness. -/
def c8enabled : CodeSource :=
  { source_id := "e", business_area := "pharmacy", source_type := "gitlab",
    path := "org/repo", languages := ["python", "java"], enabled := true }

/-- Witness for C8: both skip branches at concrete data, registry
untouched in each. -/
theorem analyze_source_skips_without_effects_witness :
    (∀ deps, analyze_source c8settings deps [("d", c8disabled)] "d" =
      ({ status := "skipped", reason := some "source_disabled" }, [("d", c8disabled)]))
    ∧ (is_codeql_enabled c8settings "pharmacy" = false)
    ∧ (∀ deps, analyze_source c8settings deps [("e", c8enabled)] "e" =
      ({ status := "skipped",
         reason := some "codeql_not_enabled_for_business_area" }, [("e", c8enabled)])) :=
  ⟨(analyze_source_skips_without_effects c8settings [("d", c8disabled)] "d"
      c8disabled rfl).1 rfl,
   rfl,
   (analyze_source_skips_without_effects c8settings [("e", c8enabled)] "e"
      c8enabled rfl).2 rfl rfl⟩

/-- C9: once the enabled checks pass, the top-level status is "success"
for every build/query/emit behaviour — failures are only recorded
per-language, never escalated to the overall status. -/
theorem analyze_source_status_always_success (settings : Settings)
    (registry : List (String × CodeSource)) (source_id : String)
    (source : CodeSource)
    (hsrc : getA registry source_id = some source)
    (hen : source.enabled = true)
    (hcq : is_codeql_enabled settings source.business_area = true) :
    ∀ deps, (analyze_source settings deps registry source_id).1.status = "success" := by
  intro deps
  simp [analyze_source, hsrc, hen, hcq]

/-- Settings with CodeQL fully enabled for "pharmacy", for the C9 witness. -/
def c9settings : Settings :=
  { business_areas_list := ["pharmacy"],
    sources_config_map := [("pharmacy", [("codeql", [("enabled", "true")])])],
    retriever_overrides_map := [], codeql_enabled := true }

/-- Collaborators that fail everywhere, for the C9 witness. -/
def c9deps : AnalysisDeps :=
  { build := fun reg _ _ _ _ => (Except.ok none, reg),
    execute_all_queries := fun _ _ => Except.error "executor down",
    emit := fun _ _ _ _ => Except.error "emitter down" }

/-- Witness for C9: with the build failing for both languages, the
overall status is still "success". -/
theorem analyze_source_status_always_success_witness :
    (getA [("e", c8enabled)] "e" = some c8enabled)
    ∧ (c8enabled.enabled = true)
    ∧ (is_codeql_enabled c9settings "pharmacy" = true)
    ∧ (analyze_source c9settings c9deps [("e", c8enabled)] "e").1.status = "success" :=
  ⟨rfl, rfl, by decide,
    analyze_source_status_always_success c9settings [("e", c8enabled)] "e" c8enabled
      rfl rfl (by decide) c9deps⟩

end Ekad
